import Mathlib

/-!
Shallow embedding of the EPG merge program `getEpgs.py`.

The program fetches several remote XMLTV sources, streams through their
`channel` and `programme` elements, filters them by allow-list, dummy
suppression and time windows, deduplicates across sources and writes the
survivors to a single output document wrapped in a fixed envelope.

Embedding conventions:
* Python strings are `String` / `List Char`; a possibly-missing XML
  attribute (`elem.get(...)`) is `Option String`.
* Python sets are duplicate-tolerant `List`s queried through a boolean
  membership function (only membership is ever observed).
* `datetime` values are a record of calendar fields; comparisons and
  `timedelta(days = n)` arithmetic go through the absolute-seconds value
  `DateTime.toSeconds`, which on valid datetimes agrees with Python's
  field-lexicographic order and exact timedelta arithmetic.
* `datetime.now()` is an ambient parameter `now : Int` (absolute seconds)
  of the run configuration.
* The output sink is an ordered list of `WriteItem`s; `WriteItem.render`
  yields the exact text written.  Element writes additionally record the
  identifying attributes of the element they came from, so that claims
  about output identity keys can be stated.
* A source stream is a list of `ParseEvent`s: the sequence of closed
  elements `iterparse` yields, optionally cut short by a `parseError`
  event after which the Python iterator raises `ET.ParseError`.
-/

/-- Boolean membership in a list, `decide`-based (models Python `in` on sets). -/
def memB {α : Type} [DecidableEq α] (x : α) : List α → Bool
  | [] => false
  | y :: ys => decide (x = y) || memB x ys

/-- Python truthiness plus membership for `tvg_id in valid_tvg_ids` where
`tvg_id` may be `None` (a missing attribute is never a member of a set of
strings). -/
def optIn (o : Option String) (l : List String) : Bool :=
  match o with
  | none => false
  | some s => memB s l

/-- Python f-string rendering of a possibly-missing attribute:
`None` prints as `"None"`. -/
def pyStr : Option String → String
  | none => "None"
  | some s => s

/-- ASCII lower-casing of one character (models `str.lower` on the ASCII
identifiers the program handles). -/
def lowerChar (c : Char) : Char :=
  if 65 ≤ c.toNat ∧ c.toNat ≤ 90 then Char.ofNat (c.toNat + 32) else c

/-- `hasPrefixL p l` decides whether `p` is a prefix of `l`. -/
def hasPrefixL : List Char → List Char → Bool
  | [], _ => true
  | _ :: _, [] => false
  | a :: as, b :: bs => decide (a = b) && hasPrefixL as bs

/-- Substring containment on character lists (models Python `needle in hay`). -/
def containsSub (needle : List Char) : List Char → Bool
  | [] => hasPrefixL needle []
  | c :: cs => hasPrefixL needle (c :: cs) || containsSub needle cs

/-! ## Time handling: `parse_xmltv_time` and the two window filters -/

/-- A parsed naive `datetime` value (calendar fields, as produced by
`datetime.strptime(date_part, '%Y%m%d%H%M%S')`). -/
structure DateTime where
  year : Nat
  month : Nat
  day : Nat
  hour : Nat
  minute : Nat
  second : Nat
deriving DecidableEq, Repr

/-- Days since 1970-01-01 of a proleptic-Gregorian date (days-from-civil
algorithm; all intermediate values are non-negative for the years the
parser can produce). -/
def daysFromCivil (y m d : Nat) : Int :=
  let yy : Int := if m ≤ 2 then (y : Int) - 1 else (y : Int)
  let era : Int := yy / 400
  let yoe : Int := yy - era * 400
  let mp : Int := if 2 < m then (m : Int) - 3 else (m : Int) + 9
  let doy : Int := (153 * mp + 2) / 5 + (d : Int) - 1
  let doe : Int := yoe * 365 + yoe / 4 - yoe / 100 + doy
  era * 146097 + doe - 719468

/-- Absolute seconds of a naive datetime; Python's comparison of valid
naive datetimes and its `timedelta` arithmetic coincide with arithmetic on
this value. -/
def DateTime.toSeconds (t : DateTime) : Int :=
  daysFromCivil t.year t.month t.day * 86400
    + (t.hour : Int) * 3600 + (t.minute : Int) * 60 + (t.second : Int)

/-- One alternative of a `_strptime` field pattern: a fixed digit width
and an inclusive numeric range (each CPython alternative such as
`1[0-2]` or `[0-1]\d` is exactly a width plus a value range). -/
structure FAlt where
  w : Nat
  lo : Nat
  hi : Nat
deriving DecidableEq, Repr

/-- Numeric value of a digit string. -/
def digitsToNat (cs : List Char) : Nat :=
  cs.foldl (fun a c => a * 10 + (c.toNat - 48)) 0

/-- Try to match one alternative at the front of the input. -/
def tryAlt (a : FAlt) (cs : List Char) : Option (Nat × List Char) :=
  let pre := cs.take a.w
  if pre.length = a.w ∧ pre.all Char.isDigit then
    let v := digitsToNat pre
    if a.lo ≤ v ∧ v ≤ a.hi then some (v, cs.drop a.w) else none
  else none

/-- Leftmost backtracking match of a sequence of alternation-only field
patterns (the regex CPython's `_strptime` builds for `%Y%m%d%H%M%S`),
returning the field values and the unconsumed remainder. -/
def matchFields : List (List FAlt) → List Char → Option (List Nat × List Char)
  | [], cs => some ([], cs)
  | f :: fs, cs =>
    f.foldl
      (fun acc a =>
        match acc with
        | some r => some r
        | none =>
          match tryAlt a cs with
          | none => none
          | some (v, rest) =>
            match matchFields fs rest with
            | none => none
            | some (vs, r) => some (v :: vs, r))
      none

/-- Field patterns of `%Y%m%d%H%M%S` in CPython `_strptime` order:
`%Y = \d\d\d\d`, `%m = 1[0-2]|0[1-9]|[1-9]`, `%d = 3[0-1]|[1-2]\d|0[1-9]|[1-9]`,
`%H = 2[0-3]|[0-1]\d|\d`, `%M = [0-5]\d|\d`, `%S = 6[0-1]|[0-5]\d|\d`. -/
def ymdhmsFields : List (List FAlt) :=
  [ [⟨4, 0, 9999⟩],
    [⟨2, 10, 12⟩, ⟨2, 1, 9⟩, ⟨1, 1, 9⟩],
    [⟨2, 30, 31⟩, ⟨2, 10, 29⟩, ⟨2, 1, 9⟩, ⟨1, 1, 9⟩],
    [⟨2, 20, 23⟩, ⟨2, 0, 19⟩, ⟨1, 0, 9⟩],
    [⟨2, 0, 59⟩, ⟨1, 0, 9⟩],
    [⟨2, 60, 61⟩, ⟨2, 0, 59⟩, ⟨1, 0, 9⟩] ]

/-- Leap-year test of the Gregorian calendar. -/
def isLeapYear (y : Nat) : Bool :=
  y % 4 = 0 && (y % 100 ≠ 0 || y % 400 = 0)

/-- Number of days of month `m` of year `y`. -/
def daysInMonth (y m : Nat) : Nat :=
  if m = 2 then (if isLeapYear y then 29 else 28)
  else if m = 4 ∨ m = 6 ∨ m = 9 ∨ m = 11 then 30
  else 31

/-- `datetime.strptime(s, '%Y%m%d%H%M%S')`: regex match, the
no-unconverted-data check, then the `datetime` constructor's range
validation (which rejects year 0, out-of-range days and the leap-second
values 60/61 the regex itself accepts). -/
def strptimeYmdHMS (cs : List Char) : Option DateTime :=
  match matchFields ymdhmsFields cs with
  | some ([y, m, d, hh, mi, ss], []) =>
    if 1 ≤ y ∧ 1 ≤ d ∧ d ≤ daysInMonth y m ∧ ss ≤ 59 then
      some ⟨y, m, d, hh, mi, ss⟩
    else none
  | _ => none

/-- `parse_xmltv_time`: `None`/empty is falsy and yields `None`; otherwise
only the first 14 characters are handed to `strptime`; any failure yields
`None`. -/
def parse_xmltv_time (time_str : Option String) : Option DateTime :=
  match time_str with
  | none => none
  | some s => if s.data = [] then none else strptimeYmdHMS (s.data.take 14)

/-- `is_programme_too_far_future`: a non-positive day window disables the
filter; an unparseable start does not trigger it; otherwise the programme
is too far in the future iff its start is strictly after
`now + timedelta(days = days_limit)`. -/
def is_programme_too_far_future (start_time_str : Option String)
    (days_limit : Int) (now : Int) : Bool :=
  if days_limit ≤ 0 then false
  else
    match parse_xmltv_time start_time_str with
    | none => false
    | some t => decide (now + days_limit * 86400 < t.toSeconds)

/-- `is_programme_too_far_past`: a non-positive day window disables the
filter; an unparseable stop does not trigger it; otherwise the programme
is too far in the past iff its stop is strictly before
`now - timedelta(days = days_limit)`. -/
def is_programme_too_far_past (stop_time_str : Option String)
    (days_limit : Int) (now : Int) : Bool :=
  if days_limit ≤ 0 then false
  else
    match parse_xmltv_time stop_time_str with
    | none => false
    | some t => decide (t.toSeconds < now - days_limit * 86400)

/-- `is_dummy_programme`: disabled flag or falsy identifier never matches;
otherwise a case-insensitive substring test for `"dummy"`. -/
def is_dummy_programme (skip_dummy_programs : Bool) (tvg_id : Option String) : Bool :=
  if !skip_dummy_programs then false
  else
    match tvg_id with
    | none => false
    | some s =>
      if s.data = [] then false
      else containsSub "dummy".data (s.data.map lowerChar)

/-! ## Text repair: `fix_xml_issues` -/

/-- Python `str.replace`: leftmost non-overlapping replacement, scanning
resumes after the replaced segment of the original string.  The `fuel`
argument only bounds the recursion: every step consumes at least one
character of the scanned list, so starting the fuel at the list length
(as `replaceList` does) it never reaches zero on a non-empty list. -/
def replaceListF (p r : List Char) : Nat → List Char → List Char
  | 0, cs => cs
  | _ + 1, [] => []
  | fuel + 1, c :: cs =>
    if p ≠ [] ∧ hasPrefixL p (c :: cs) = true then
      r ++ replaceListF p r fuel (cs.drop (p.length - 1))
    else
      c :: replaceListF p r fuel cs

/-- Python `str.replace` on character lists. -/
def replaceList (p r cs : List Char) : List Char :=
  replaceListF p r cs.length cs

/-- The whitespace characters Python's `re` module matches with `\s` in a
unicode `str` pattern. -/
def isRegexSpace (c : Char) : Bool :=
  memB c.toNat [0x9, 0xa, 0xb, 0xc, 0xd, 0x1c, 0x1d, 0x1e, 0x1f, 0x20,
    0x85, 0xa0, 0x1680, 0x2000, 0x2001, 0x2002, 0x2003, 0x2004, 0x2005,
    0x2006, 0x2007, 0x2008, 0x2009, 0x200a, 0x2028, 0x2029, 0x202f, 0x205f, 0x3000]

/-- The closing tag literal of the programme-tag regex. -/
def progClose : List Char := "</programme>".data

/-- The opening tag literal of the programme-tag regex. -/
def progOpen : List Char := "<programme".data

/-- `re.sub(r'</programme>\s*<programme', '</programme>\n<programme', _)`:
leftmost non-overlapping matches; at a match position the `\s*` run is
necessarily maximal (no whitespace character can begin `<programme`),
scanning resumes after the matched text. -/
def fixProgTagsF : Nat → List Char → List Char
  | 0, cs => cs
  | _ + 1, [] => []
  | fuel + 1, c :: cs =>
    if hasPrefixL progClose (c :: cs) = true then
      let rest := cs.drop 11
      let rest2 := rest.dropWhile isRegexSpace
      if hasPrefixL progOpen rest2 = true then
        progClose ++ '\n' :: (progOpen ++ fixProgTagsF fuel (rest2.drop 10))
      else c :: fixProgTagsF fuel cs
    else c :: fixProgTagsF fuel cs

/-- The programme-tag newline repair on a whole character list (the fuel
starts at the list length and every step consumes at least one
character). -/
def fixProgTags (cs : List Char) : List Char :=
  fixProgTagsF cs.length cs

/-- `re.sub(r'[^\x20-\x7E\n\r\t]', '', _)`: keep exactly the printable
ASCII characters plus newline, carriage return and tab. -/
def stripNonPrintable (cs : List Char) : List Char :=
  cs.filter fun c =>
    (0x20 ≤ c.toNat && c.toNat ≤ 0x7E) || c = '\n' || c = '\r' || c = '\t'

/-- `fix_xml_issues`: the three text repairs in program order. -/
def fix_xml_issues (xml_content : String) : String :=
  let s1 := replaceList "&amp;amp;".data "&amp;".data xml_content.data
  let s2 := fixProgTags s1
  let s3 := stripNonPrintable s2
  String.mk s3

/-! ## Retrying fetcher: `fetch_with_retry` -/

/-- Outcome of one HTTP GET attempt: a response with a status code, or one
of the exception classes `requests` raises. -/
inductive AttemptResult
  | status : Nat → AttemptResult
  | timeoutError : AttemptResult
  | connectionError : AttemptResult
  | requestError : AttemptResult
deriving DecidableEq, Repr

/-- `max_retries` of the program. -/
def max_retries : Nat := 5

/-- `retry_delay` (seconds) of the program. -/
def retry_delay : Nat := 5

/-- Whether one attempt makes `fetch_with_retry` return: it must raise no
exception and carry status code exactly 200. -/
def isHttp200 : AttemptResult → Bool
  | .status c => decide (c = 200)
  | _ => false

/-- Observable outcome of the fetch loop: the attempt number that
returned the response (if any) and the number of `time.sleep(retry_delay)`
calls executed. -/
structure FetchOutcome where
  success : Option Nat
  sleeps : Nat
deriving DecidableEq, Repr

/-- The `for attempt in range(1, max_retries + 1)` loop body over the
remaining attempt numbers: return on status 200, otherwise sleep
(only when `attempt < max_retries`) and move on. -/
def fetchGo (results : Nat → AttemptResult) (maxR : Nat) : List Nat → FetchOutcome
  | [] => ⟨none, 0⟩
  | a :: rest =>
    if isHttp200 (results a) then ⟨some a, 0⟩
    else
      let o := fetchGo results maxR rest
      ⟨o.success, (if a < maxR then 1 else 0) + o.sleeps⟩

/-- `fetch_with_retry`, abstracted over the per-attempt network outcome. -/
def fetch_with_retry (results : Nat → AttemptResult) : FetchOutcome :=
  fetchGo results max_retries (List.range' 1 max_retries)

/-! ## The streaming merge engine -/

/-- A closed `channel` element: its `id` attribute and its full serialized
text (`ET.tostring(elem, encoding='unicode')`). -/
structure ChannelData where
  id : Option String
  raw : String
deriving DecidableEq, Repr

/-- A closed `programme` element: its `channel`, `start`, `stop`
attributes and its full serialized text. -/
structure ProgrammeData where
  channel : Option String
  start : Option String
  stop : Option String
  raw : String
deriving DecidableEq, Repr

/-- A closed top-level element the parser yields. -/
inductive Element
  | channel : ChannelData → Element
  | programme : ProgrammeData → Element
  | other : String → Element
deriving DecidableEq, Repr

/-- One event of a source stream: a closed element, or the point at which
`ET.iterparse` raises `ET.ParseError` (after which the source yields
nothing more). -/
inductive ParseEvent
  | elem : Element → ParseEvent
  | parseError : ParseEvent
deriving DecidableEq, Repr

/-- One chunk written to the shared output handle, with the identifying
attributes of element writes recorded alongside the text. -/
inductive WriteItem
  | text : String → WriteItem
  | channelElem : Option String → String → WriteItem
  | programmeElem : Option String → Option String → Option String → String → WriteItem
deriving DecidableEq, Repr

/-- The exact text a `WriteItem` puts on the output handle. -/
def WriteItem.render : WriteItem → String
  | .text s => s
  | .channelElem _ raw => "  " ++ raw ++ "\n"
  | .programmeElem _ _ _ raw => "  " ++ raw ++ "\n"

/-- The shared statistics dictionary. -/
structure Stats where
  total_channels_in_sources : Nat
  total_programmes_in_sources : Nat
  channels_filtered_by_tvg_id : Nat
  programmes_filtered_by_tvg_id : Nat
  programmes_filtered_by_future : Nat
  programmes_filtered_by_past : Nat
  programmes_filtered_by_dummy : Nat
deriving DecidableEq, Repr

/-- The all-zero statistics dictionary `filter_and_build_epg` starts from. -/
def initStats : Stats := ⟨0, 0, 0, 0, 0, 0, 0⟩

/-- The per-source local counters of `stream_parse_epg`. -/
structure SourceCounters where
  channels_added : Nat
  channels_filtered : Nat
  programmes_added : Nat
  programmes_filtered_tvg : Nat
  programmes_skipped_future : Nat
  programmes_skipped_past : Nat
  programmes_skipped_dummy : Nat
deriving DecidableEq, Repr

/-- Zero-initialized per-source counters. -/
def zeroCounters : SourceCounters := ⟨0, 0, 0, 0, 0, 0, 0⟩

/-- The module-level filter configuration plus the ambient wall clock. -/
structure Config where
  days_future : Int
  days_past : Int
  skip_dummy_programs : Bool
  now : Int

/-- The shared mutable state of one run: the two dedup sets, the shared
statistics and the output handle's written content. -/
structure RunState where
  seen_channels : List (Option String)
  seen_programmes : List String
  stats : Stats
  output : List WriteItem
deriving DecidableEq, Repr

/-- The programme identity key `f"{tvg_id}_{start_time}_{stop_time}"`. -/
def progKey (channel start stop : Option String) : String :=
  pyStr channel ++ "_" ++ pyStr start ++ "_" ++ pyStr stop

/-- The body of the `iterparse` loop of `stream_parse_epg` for one closed
element: shared state plus local counters before and after. -/
def handleElem (cfg : Config) (valid_tvg_ids : List String)
    (acc : RunState × SourceCounters) : Element → RunState × SourceCounters
  | .channel c =>
    let st := acc.1
    let loc := acc.2
    let st := { st with stats := { st.stats with
      total_channels_in_sources := st.stats.total_channels_in_sources + 1 } }
    if !valid_tvg_ids.isEmpty && !optIn c.id valid_tvg_ids then
      (st, { loc with channels_filtered := loc.channels_filtered + 1 })
    else if !memB c.id st.seen_channels then
      ({ st with
          seen_channels := c.id :: st.seen_channels,
          output := st.output ++ [.channelElem c.id c.raw] },
       { loc with channels_added := loc.channels_added + 1 })
    else (st, loc)
  | .programme p =>
    let st := acc.1
    let loc := acc.2
    let st := { st with stats := { st.stats with
      total_programmes_in_sources := st.stats.total_programmes_in_sources + 1 } }
    if !valid_tvg_ids.isEmpty && !optIn p.channel valid_tvg_ids then
      (st, { loc with programmes_filtered_tvg := loc.programmes_filtered_tvg + 1 })
    else if is_dummy_programme cfg.skip_dummy_programs p.channel then
      (st, { loc with programmes_skipped_dummy := loc.programmes_skipped_dummy + 1 })
    else if is_programme_too_far_future p.start cfg.days_future cfg.now then
      (st, { loc with programmes_skipped_future := loc.programmes_skipped_future + 1 })
    else if is_programme_too_far_past p.stop cfg.days_past cfg.now then
      (st, { loc with programmes_skipped_past := loc.programmes_skipped_past + 1 })
    else
      if !memB (progKey p.channel p.start p.stop) st.seen_programmes then
        ({ st with
            seen_programmes := progKey p.channel p.start p.stop :: st.seen_programmes,
            output := st.output ++ [.programmeElem p.channel p.start p.stop p.raw] },
         { loc with programmes_added := loc.programmes_added + 1 })
      else (st, loc)
  | .other _ => acc

/-- The event loop of `stream_parse_epg`: handle each closed element in
order; at a parse error the iterator raises, so nothing after the first
`parseError` event is handled. -/
def processEvents (cfg : Config) (valid_tvg_ids : List String) :
    List ParseEvent → RunState × SourceCounters → RunState × SourceCounters
  | [], acc => acc
  | .parseError :: _, acc => acc
  | .elem e :: rest, acc => processEvents cfg valid_tvg_ids rest (handleElem cfg valid_tvg_ids acc e)

/-- Fold the per-source local counters into the shared statistics (the
code after the `try` block of `stream_parse_epg`). -/
def applyCounters (s : Stats) (loc : SourceCounters) : Stats :=
  { s with
    channels_filtered_by_tvg_id := s.channels_filtered_by_tvg_id + loc.channels_filtered,
    programmes_filtered_by_tvg_id := s.programmes_filtered_by_tvg_id + loc.programmes_filtered_tvg,
    programmes_filtered_by_future := s.programmes_filtered_by_future + loc.programmes_skipped_future,
    programmes_filtered_by_past := s.programmes_filtered_by_past + loc.programmes_skipped_past,
    programmes_filtered_by_dummy := s.programmes_filtered_by_dummy + loc.programmes_skipped_dummy }

/-- `stream_parse_epg` on one source stream: run the event loop from
fresh local counters, then fold the local counters into the shared
statistics (this happens whether or not a parse error cut the stream). -/
def stream_parse_epg (cfg : Config) (valid_tvg_ids : List String)
    (events : List ParseEvent) (st : RunState) : RunState :=
  let res := processEvents cfg valid_tvg_ids events (st, zeroCounters)
  { res.1 with stats := applyCounters res.1.stats res.2 }

/-- `process_epg_source`: a source whose fetch failed (`None`) is skipped
entirely; otherwise its stream is parsed into the shared state. -/
def process_epg_source (cfg : Config) (valid_tvg_ids : List String)
    (st : RunState) : Option (List ParseEvent) → RunState
  | none => st
  | some events => stream_parse_epg cfg valid_tvg_ids events st

/-- The first line `write_xml_header` writes. -/
def xmlDeclLine : String := "<?xml version=\"1.0\" encoding=\"utf-8\"?>\n"

/-- The second line `write_xml_header` writes. -/
def tvOpenLine : String := "<tv>\n"

/-- The line `write_xml_footer` writes. -/
def tvCloseLine : String := "</tv>\n"

/-- `filter_and_build_epg`, abstracted over the resolved allow-list and
the fetched per-source event streams: write the envelope head, process
every source in list order against the shared state, write the envelope
tail. -/
def filter_and_build_epg (cfg : Config) (valid_tvg_ids : List String)
    (sources : List (Option (List ParseEvent))) : RunState :=
  let st0 : RunState :=
    { seen_channels := [], seen_programmes := [], stats := initStats,
      output := [.text xmlDeclLine, .text tvOpenLine] }
  let st1 := sources.foldl (fun st src => process_epg_source cfg valid_tvg_ids st src) st0
  { st1 with output := st1.output ++ [.text tvCloseLine] }

/-! ## Output inspection helpers -/

/-- Whether a write item is an element write (not envelope text). -/
def WriteItem.isElemWrite : WriteItem → Bool
  | .text _ => false
  | .channelElem _ _ => true
  | .programmeElem _ _ _ _ => true

/-- Whether a write item is a channel-element write. -/
def WriteItem.isChannelWrite : WriteItem → Bool
  | .channelElem _ _ => true
  | _ => false

/-- The identifiers of the channel elements written, in output order. -/
def channelIds (out : List WriteItem) : List (Option String) :=
  out.filterMap fun w =>
    match w with
    | .channelElem i _ => some i
    | _ => none

/-- The (channel, start, stop) attribute triples of the programme
elements written, in output order. -/
def progTriples (out : List WriteItem) :
    List (Option String × Option String × Option String) :=
  out.filterMap fun w =>
    match w with
    | .programmeElem a b c _ => some (a, b, c)
    | _ => none

/-- The identity keys of the programme elements written, in output order. -/
def progKeysOf (out : List WriteItem) : List String :=
  out.filterMap fun w =>
    match w with
    | .programmeElem a b c _ => some (progKey a b c)
    | _ => none

/-- The write item one closed element would produce if serialized. -/
def elemWriteOf : Element → Option WriteItem
  | .channel c => some (.channelElem c.id c.raw)
  | .programme p => some (.programmeElem p.channel p.start p.stop p.raw)
  | .other _ => none

/-- All element writes a source stream could contribute, in document
order, cut at the first parse error. -/
def eventCandidates : List ParseEvent → List WriteItem
  | [] => []
  | .parseError :: _ => []
  | .elem e :: rest =>
    match elemWriteOf e with
    | some w => w :: eventCandidates rest
    | none => eventCandidates rest

/-- Candidates of one (possibly failed-fetch) source. -/
def sourceCandidates : Option (List ParseEvent) → List WriteItem
  | none => []
  | some events => eventCandidates events

/-- `true` iff no channel-element write occurs after a programme-element
write (the "channels first, then programmes" document shape). -/
def noChannelAfterProgramme : List WriteItem → Bool
  | [] => true
  | .programmeElem _ _ _ _ :: rest => rest.all fun w => ! w.isChannelWrite
  | _ :: rest => noChannelAfterProgramme rest

/-! ## Spec-side definitions used to compare claims with the code -/

/-- Modelled from the claim text of the fetcher: an attempt succeeds when
its HTTP status is in the 2xx range. -/
def is2xx : AttemptResult → Bool
  | .status c => decide (200 ≤ c ∧ c < 300)
  | _ => false

/-- Modelled from the claim text: the fetcher returns on the first of the
5 attempts whose status is in the 2xx range. -/
def fetchFirst2xx (results : Nat → AttemptResult) : Option Nat :=
  (List.range' 1 max_retries).find? fun a => is2xx (results a)

/-- First of the 5 attempts whose status is exactly 200 (the amended
success rule). -/
def fetchFirst200 (results : Nat → AttemptResult) : Option Nat :=
  (List.range' 1 max_retries).find? fun a => isHttp200 (results a)

/-- Modelled from the claim text of the text repair, third clause: keep
exactly the characters inside printable ASCII or among newline, carriage
return, tab. -/
def stripSpecChars (cs : List Char) : List Char :=
  cs.filter fun c =>
    decide ((0x20 ≤ c.toNat ∧ c.toNat ≤ 0x7E) ∨ c = '\n' ∨ c = '\r' ∨ c = '\t')

/-- Modelled from the claim text of the text repair, second clause read
literally: between a closing `</programme>` tag and a directly adjacent
opening `<programme` tag, insert a newline. -/
def insertNewlineAdjacentF : Nat → List Char → List Char
  | 0, cs => cs
  | _ + 1, [] => []
  | fuel + 1, c :: cs =>
    if hasPrefixL progClose (c :: cs) && hasPrefixL progOpen (cs.drop 11) then
      progClose ++ '\n' :: (progOpen ++ insertNewlineAdjacentF fuel ((cs.drop 11).drop 10))
    else c :: insertNewlineAdjacentF fuel cs

/-- The literal-reading newline insertion on a whole character list. -/
def insertNewlineAdjacent (cs : List Char) : List Char :=
  insertNewlineAdjacentF cs.length cs

/-- Modelled from the claim text of C9 read literally: the three repairs
with the newline clause as pure insertion between adjacent tags. -/
def fix_xml_issues_claim (s : String) : String :=
  String.mk (stripSpecChars (insertNewlineAdjacent
    (replaceList "&amp;amp;".data "&amp;".data s.data)))

/-- Split off a `</programme>\s*<programme` match at the front of the
input, returning the remainder after the opening tag. -/
def closeOpenSplit (cs : List Char) : Option (List Char) :=
  if hasPrefixL progClose cs = true then
    let r := (cs.drop 12).dropWhile isRegexSpace
    if hasPrefixL progOpen r = true then some (r.drop 10) else none
  else none

/-- Modelled from the amended claim text: replace the whitespace run
between each closing `</programme>` tag and the following opening
`<programme` tag with a single newline, scanning left to right. -/
def progNewlineSpecF : Nat → List Char → List Char
  | 0, cs => cs
  | _ + 1, [] => []
  | fuel + 1, c :: cs =>
    match closeOpenSplit (c :: cs) with
    | some rest => progClose ++ '\n' :: (progOpen ++ progNewlineSpecF fuel rest)
    | none => c :: progNewlineSpecF fuel cs

/-- The amended-claim newline repair on a whole character list. -/
def progNewlineSpec (cs : List Char) : List Char :=
  progNewlineSpecF cs.length cs

/-- Modelled from the amended claim text of C9: the three repairs in
order, with the newline clause as whitespace-run replacement. -/
def fix_xml_issues_amended (s : String) : String :=
  String.mk (stripSpecChars (progNewlineSpec
    (replaceList "&amp;amp;".data "&amp;".data s.data)))

/-- The cross-source deduplication invariant: the channel identifiers
written so far are pairwise distinct and all recorded in the seen-channel
set, and likewise the programme identity keys written so far with the
seen-programme-key set. -/
def DedupInv (st : RunState) : Prop :=
  (channelIds st.output).Nodup
  ∧ (∀ i ∈ channelIds st.output, memB i st.seen_channels = true)
  ∧ (progKeysOf st.output).Nodup
  ∧ (∀ k ∈ progKeysOf st.output, memB k st.seen_programmes = true)

/-! ## General lemmas about the embedding -/

/-- `memB` agrees with list membership. -/
theorem memB_iff {α : Type} [DecidableEq α] (x : α) (l : List α) :
    memB x l = true ↔ x ∈ l := by
  induction l with
  | nil => simp [memB]
  | cons y ys ih => simp [memB, ih]

/-- The fuel-parametric source-side and spec-side newline repairs agree
step for step. -/
theorem fixProgTagsF_eq_progNewlineSpecF (fuel : Nat) (cs : List Char) :
    fixProgTagsF fuel cs = progNewlineSpecF fuel cs := by
  induction fuel generalizing cs with
  | zero => simp [fixProgTagsF, progNewlineSpecF]
  | succ fuel ih =>
    cases cs with
    | nil => simp [fixProgTagsF, progNewlineSpecF]
    | cons c cs =>
      simp only [fixProgTagsF, progNewlineSpecF, closeOpenSplit, List.drop_succ_cons]
      by_cases h1 : hasPrefixL progClose (c :: cs) = true
      · by_cases h2 : hasPrefixL progOpen ((cs.drop 11).dropWhile isRegexSpace) = true
        · simp [h1, h2, ih]
        · simp [h1, h2, ih]
      · simp [h1, ih]

/-- The newline repairs agree on every input. -/
theorem fixProgTags_eq_progNewlineSpec (cs : List Char) :
    fixProgTags cs = progNewlineSpec cs :=
  fixProgTagsF_eq_progNewlineSpecF cs.length cs

/-- The source-side character strip and the claim-worded character strip
keep exactly the same characters. -/
theorem stripNonPrintable_eq_stripSpecChars (cs : List Char) :
    stripNonPrintable cs = stripSpecChars cs := by
  unfold stripNonPrintable stripSpecChars
  refine List.filter_congr ?_
  intro c _
  simp [Bool.decide_or, Bool.decide_and, Bool.or_assoc]

/-! ## Claim C9: the text repair pass -/

/-- C9 counterexample: on `"</programme> <programme"` the code does not
merely insert a newline between adjacent tags — it deletes the separating
space and substitutes a newline, so the literal reading of the claim
(ampersand collapse, newline insertion between adjacent tags, non-printable
strip, and nothing else) disagrees with the code. -/
theorem fix_xml_issues_collapses_whitespace :
    fix_xml_issues "</programme> <programme" = "</programme>\n<programme"
    ∧ fix_xml_issues_claim "</programme> <programme" = "</programme> <programme"
    ∧ fix_xml_issues "</programme> <programme"
        ≠ fix_xml_issues_claim "</programme> <programme" := by
  refine ⟨by decide, by decide, by decide⟩

/-- C9 amended: `fix_xml_issues` performs exactly these deterministic
repairs, in order: it replaces occurrences of the doubly-escaped
ampersand sequence with the singly-escaped one, it replaces the
(possibly empty) whitespace run between a closing programme tag and a
following opening programme tag with a single newline, and it removes
every character outside printable ASCII except newline, carriage return
and tab. -/
theorem fix_xml_issues_eq_amended_spec (s : String) :
    fix_xml_issues s = fix_xml_issues_amended s := by
  simp only [fix_xml_issues, fix_xml_issues_amended,
    fixProgTags_eq_progNewlineSpec, stripNonPrintable_eq_stripSpecChars]

/-! ## Claim C10: the programme identity key is a joined string -/

/-- C10: the programme identity key is the underscore-joined string, not
a tuple, so the distinct attribute triples `("a_b", "c", "s")` and
`("a", "b_c", "s")` collide on the same key, and when both programmes
appear the later one is silently discarded as a duplicate and never
written to the output. -/
theorem progKey_string_collision_drops_second :
    progKey (some "a_b") (some "c") (some "s") = progKey (some "a") (some "b_c") (some "s")
    ∧ ((some "a_b" : Option String), (some "c" : Option String), (some "s" : Option String))
        ≠ ((some "a" : Option String), (some "b_c" : Option String), (some "s" : Option String))
    ∧ (stream_parse_epg ⟨0, 0, false, 0⟩ []
        [.elem (.programme ⟨some "a_b", some "c", some "s", "<programme one/>"⟩),
         .elem (.programme ⟨some "a", some "b_c", some "s", "<programme two/>"⟩)]
        ⟨[], [], initStats, []⟩).output
      = [.programmeElem (some "a_b") (some "c") (some "s") "<programme one/>"] := by
  refine ⟨by decide, by decide, by decide⟩

/-! ## Claim C4: the retrying fetcher -/

/-- A run of attempts that all return HTTP 204 (a 2xx status that is not
200). -/
def allNonOkAttempts : Nat → AttemptResult := fun _ => AttemptResult.status 204

/-- C4 counterexample: when every attempt returns HTTP 204 the claim
(success on the first attempt whose status is in the 2xx range) predicts
success on attempt 1, but the code only accepts status exactly 200 and
returns the failure signal after exhausting all 5 attempts. -/
theorem fetch_2xx_not_treated_as_success :
    is2xx (allNonOkAttempts 1) = true
    ∧ fetchFirst2xx allNonOkAttempts = some 1
    ∧ (fetch_with_retry allNonOkAttempts).success = none
    ∧ fetchFirst2xx allNonOkAttempts ≠ (fetch_with_retry allNonOkAttempts).success := by
  refine ⟨by decide, by decide, by decide, by decide⟩

/-- C4 amended: the fetcher makes up to 5 attempts and returns the
response exactly on the first attempt whose status is exactly 200 (any
network-layer failure or any other status falls through); between a
failed attempt and the next one it sleeps once for the fixed 5-second
delay (so a success on attempt `a` is preceded by `a - 1` sleeps and an
exhausted run by 4), and after exhausting all attempts it returns the
failure signal `none`. -/
theorem fetch_with_retry_first_200 (results : Nat → AttemptResult) :
    (fetch_with_retry results).success = fetchFirst200 results
    ∧ (fetch_with_retry results).sleeps
        = (match fetchFirst200 results with
           | some a => a - 1
           | none => max_retries - 1) := by
  have hr : List.range' 1 max_retries = [1, 2, 3, 4, 5] := by decide
  unfold fetch_with_retry fetchFirst200
  rw [hr]
  cases h1 : isHttp200 (results 1) <;> cases h2 : isHttp200 (results 2) <;>
    cases h3 : isHttp200 (results 3) <;> cases h4 : isHttp200 (results 4) <;>
    cases h5 : isHttp200 (results 5) <;>
    simp [fetchGo, List.find?, h1, h2, h3, h4, h5, max_retries]

/-! ## Claims C7 and C8: timestamp parsing and the time-window filters -/

/-- C7: a timestamp value that fails to parse (including a missing or
empty one) never triggers the future or past window filter, so a
programme is never dropped on that basis alone; and timestamp parsing
reads only the first 14 characters of the string, ignoring any timezone
offset that follows. -/
theorem unparseable_timestamp_never_drops (ts : Option String) (dF dP now : Int) :
    (parse_xmltv_time ts = none →
      is_programme_too_far_future ts dF now = false
      ∧ is_programme_too_far_past ts dP now = false)
    ∧ ∀ s : String,
        parse_xmltv_time (some s) = parse_xmltv_time (some (String.mk (s.data.take 14))) := by
  constructor
  · intro h
    constructor
    · simp only [is_programme_too_far_future, h]
      split <;> rfl
    · simp only [is_programme_too_far_past, h]
      split <;> rfl
  · intro s
    by_cases hs : s.data = []
    · simp [parse_xmltv_time, hs]
    · have ht : ¬ (s.data.take 14 = []) := by
        simp only [List.take_eq_nil_iff]
        simp [hs]
      simp [parse_xmltv_time, hs, ht, List.take_take]

/-- C7 witness: the unparseable timestamp `"tomorrow"` triggers neither
window filter. -/
theorem unparseable_timestamp_never_drops_witness :
    is_programme_too_far_future (some "tomorrow") 7 0 = false
    ∧ is_programme_too_far_past (some "tomorrow") 7 0 = false :=
  (unparseable_timestamp_never_drops (some "tomorrow") 7 7 0).1 (by decide)

/-- C8: for a programme whose timestamp parses, the future filter fires
exactly when the day window is positive and the start is strictly after
`now` plus the window, the past filter fires exactly when the day window
is positive and the stop is strictly before `now` minus the window, and a
window value of 0 disables the corresponding filter entirely. -/
theorem window_filters_exact (ts : Option String) (t : DateTime) (days now : Int) :
    (parse_xmltv_time ts = some t →
      (is_programme_too_far_future ts days now = true
        ↔ 0 < days ∧ now + days * 86400 < t.toSeconds)
      ∧ (is_programme_too_far_past ts days now = true
        ↔ 0 < days ∧ t.toSeconds < now - days * 86400))
    ∧ is_programme_too_far_future ts 0 now = false
    ∧ is_programme_too_far_past ts 0 now = false := by
  refine ⟨fun h => ⟨?_, ?_⟩, ?_, ?_⟩
  · simp only [is_programme_too_far_future, h]
    by_cases hd : days ≤ 0 <;> simp [hd] <;> omega
  · simp only [is_programme_too_far_past, h]
    by_cases hd : days ≤ 0 <;> simp [hd] <;> omega
  · simp [is_programme_too_far_future]
  · simp [is_programme_too_far_past]

/-- C8 witness: the start `"20250110120000"` parses, and with a 1-day
window around `now = 0` both filter characterizations hold at it. -/
theorem window_filters_exact_witness :
    (is_programme_too_far_future (some "20250110120000") 1 0 = true
      ↔ 0 < (1 : Int) ∧ 0 + 1 * 86400 < DateTime.toSeconds ⟨2025, 1, 10, 12, 0, 0⟩)
    ∧ (is_programme_too_far_past (some "20250110120000") 1 0 = true
      ↔ 0 < (1 : Int) ∧ DateTime.toSeconds ⟨2025, 1, 10, 12, 0, 0⟩ < 0 - 1 * 86400) :=
  (window_filters_exact (some "20250110120000") ⟨2025, 1, 10, 12, 0, 0⟩ 1 0).1 (by decide)

/-! ## Claim C1: filter priority order and bucket exclusivity -/

/-- C1: for every programme element the merge engine handles, the filters
apply in the fixed priority order allow-list, dummy, future, past,
deduplication, the first matching filter wins, and for a non-duplicate
programme exactly one of the five buckets (filtered-by-identifier,
filtered-by-dummy, filtered-by-future, filtered-by-past, added) is
incremented (a programme surviving all filters but found to be a
duplicate increments none of them). -/
theorem programme_filters_priority_order (cfg : Config) (valid : List String)
    (st : RunState) (loc : SourceCounters) (p : ProgrammeData) :
    ((handleElem cfg valid (st, loc) (Element.programme p)).2.programmes_filtered_tvg
        = loc.programmes_filtered_tvg
          + (if !valid.isEmpty && !optIn p.channel valid then 1 else 0))
    ∧ ((handleElem cfg valid (st, loc) (Element.programme p)).2.programmes_skipped_dummy
        = loc.programmes_skipped_dummy
          + (if !(!valid.isEmpty && !optIn p.channel valid)
                && is_dummy_programme cfg.skip_dummy_programs p.channel then 1 else 0))
    ∧ ((handleElem cfg valid (st, loc) (Element.programme p)).2.programmes_skipped_future
        = loc.programmes_skipped_future
          + (if !(!valid.isEmpty && !optIn p.channel valid)
                && !is_dummy_programme cfg.skip_dummy_programs p.channel
                && is_programme_too_far_future p.start cfg.days_future cfg.now then 1 else 0))
    ∧ ((handleElem cfg valid (st, loc) (Element.programme p)).2.programmes_skipped_past
        = loc.programmes_skipped_past
          + (if !(!valid.isEmpty && !optIn p.channel valid)
                && !is_dummy_programme cfg.skip_dummy_programs p.channel
                && !is_programme_too_far_future p.start cfg.days_future cfg.now
                && is_programme_too_far_past p.stop cfg.days_past cfg.now then 1 else 0))
    ∧ ((handleElem cfg valid (st, loc) (Element.programme p)).2.programmes_added
        = loc.programmes_added
          + (if !(!valid.isEmpty && !optIn p.channel valid)
                && !is_dummy_programme cfg.skip_dummy_programs p.channel
                && !is_programme_too_far_future p.start cfg.days_future cfg.now
                && !is_programme_too_far_past p.stop cfg.days_past cfg.now
                && !memB (progKey p.channel p.start p.stop) st.seen_programmes
             then 1 else 0))
    ∧ ((if !valid.isEmpty && !optIn p.channel valid then 1 else 0)
        + (if !(!valid.isEmpty && !optIn p.channel valid)
              && is_dummy_programme cfg.skip_dummy_programs p.channel then 1 else 0)
        + (if !(!valid.isEmpty && !optIn p.channel valid)
              && !is_dummy_programme cfg.skip_dummy_programs p.channel
              && is_programme_too_far_future p.start cfg.days_future cfg.now then 1 else 0)
        + (if !(!valid.isEmpty && !optIn p.channel valid)
              && !is_dummy_programme cfg.skip_dummy_programs p.channel
              && !is_programme_too_far_future p.start cfg.days_future cfg.now
              && is_programme_too_far_past p.stop cfg.days_past cfg.now then 1 else 0)
        + (if !(!valid.isEmpty && !optIn p.channel valid)
              && !is_dummy_programme cfg.skip_dummy_programs p.channel
              && !is_programme_too_far_future p.start cfg.days_future cfg.now
              && !is_programme_too_far_past p.stop cfg.days_past cfg.now
              && !memB (progKey p.channel p.start p.stop) st.seen_programmes
           then 1 else 0)
        = if !(!valid.isEmpty && !optIn p.channel valid)
              && !is_dummy_programme cfg.skip_dummy_programs p.channel
              && !is_programme_too_far_future p.start cfg.days_future cfg.now
              && !is_programme_too_far_past p.stop cfg.days_past cfg.now
              && memB (progKey p.channel p.start p.stop) st.seen_programmes
          then 0 else (1 : Nat)) := by
  cases hc1 : !valid.isEmpty && !optIn p.channel valid <;>
    cases hc2 : is_dummy_programme cfg.skip_dummy_programs p.channel <;>
    cases hc3 : is_programme_too_far_future p.start cfg.days_future cfg.now <;>
    cases hc4 : is_programme_too_far_past p.stop cfg.days_past cfg.now <;>
    cases hdup : memB (progKey p.channel p.start p.stop) st.seen_programmes <;>
    simp [handleElem, hc1, hc2, hc3, hc4, hdup]

/-! ## Claim C3: the empty allow-list disables identifier filtering -/

/-- Handling one element never changes the two filtered-by-identifier
statistics fields (only `applyCounters` does, at end of source). -/
theorem handleElem_keeps_tvg_stats (cfg : Config) (valid : List String)
    (acc : RunState × SourceCounters) (e : Element) :
    (handleElem cfg valid acc e).1.stats.channels_filtered_by_tvg_id
        = acc.1.stats.channels_filtered_by_tvg_id
    ∧ (handleElem cfg valid acc e).1.stats.programmes_filtered_by_tvg_id
        = acc.1.stats.programmes_filtered_by_tvg_id := by
  obtain ⟨st, loc⟩ := acc
  cases e <;> simp only [handleElem] <;> constructor <;> (repeat' split) <;> simp

/-- With an empty allow-list, handling one element never bumps the local
filtered-by-identifier counters. -/
theorem handleElem_empty_valid_no_tvg (cfg : Config)
    (acc : RunState × SourceCounters) (e : Element) :
    (handleElem cfg [] acc e).2.channels_filtered = acc.2.channels_filtered
    ∧ (handleElem cfg [] acc e).2.programmes_filtered_tvg = acc.2.programmes_filtered_tvg := by
  obtain ⟨st, loc⟩ := acc
  cases e <;> simp only [handleElem] <;> constructor <;> (repeat' split) <;>
    simp_all [List.isEmpty]

/-- The event loop never changes the filtered-by-identifier statistics
fields. -/
theorem processEvents_keeps_tvg_stats (cfg : Config) (valid : List String)
    (evs : List ParseEvent) : ∀ acc : RunState × SourceCounters,
    (processEvents cfg valid evs acc).1.stats.channels_filtered_by_tvg_id
        = acc.1.stats.channels_filtered_by_tvg_id
    ∧ (processEvents cfg valid evs acc).1.stats.programmes_filtered_by_tvg_id
        = acc.1.stats.programmes_filtered_by_tvg_id := by
  induction evs with
  | nil => intro acc; simp [processEvents]
  | cons ev rest ih =>
    intro acc
    cases ev with
    | parseError => simp [processEvents]
    | elem e =>
      have h1 := handleElem_keeps_tvg_stats cfg valid acc e
      have h2 := ih (handleElem cfg valid acc e)
      exact ⟨h2.1.trans h1.1, h2.2.trans h1.2⟩

/-- With an empty allow-list the event loop never bumps the local
filtered-by-identifier counters. -/
theorem processEvents_empty_valid_no_tvg (cfg : Config)
    (evs : List ParseEvent) : ∀ acc : RunState × SourceCounters,
    (processEvents cfg [] evs acc).2.channels_filtered = acc.2.channels_filtered
    ∧ (processEvents cfg [] evs acc).2.programmes_filtered_tvg = acc.2.programmes_filtered_tvg := by
  induction evs with
  | nil => intro acc; simp [processEvents]
  | cons ev rest ih =>
    intro acc
    cases ev with
    | parseError => simp [processEvents]
    | elem e =>
      have h1 := handleElem_empty_valid_no_tvg cfg acc e
      have h2 := ih (handleElem cfg [] acc e)
      exact ⟨h2.1.trans h1.1, h2.2.trans h1.2⟩

/-- With an empty allow-list one source leaves the filtered-by-identifier
statistics untouched. -/
theorem stream_parse_epg_empty_valid_tvg (cfg : Config)
    (evs : List ParseEvent) (st : RunState) :
    (stream_parse_epg cfg [] evs st).stats.channels_filtered_by_tvg_id
        = st.stats.channels_filtered_by_tvg_id
    ∧ (stream_parse_epg cfg [] evs st).stats.programmes_filtered_by_tvg_id
        = st.stats.programmes_filtered_by_tvg_id := by
  have h1 := processEvents_keeps_tvg_stats cfg [] evs (st, zeroCounters)
  have h2 := processEvents_empty_valid_no_tvg cfg evs (st, zeroCounters)
  simp only [stream_parse_epg, applyCounters]
  constructor
  · rw [h1.1, h2.1]; simp [zeroCounters]
  · rw [h1.2, h2.2]; simp [zeroCounters]

/-- C3: if the allow-list set is empty, the identifier-membership filter
never fires: handling any element leaves the local filtered-by-identifier
counters unchanged, and over a whole run the two filtered-by-identifier
statistics counters stay 0. -/
theorem empty_allowlist_never_filters (cfg : Config)
    (sources : List (Option (List ParseEvent))) :
    (∀ (acc : RunState × SourceCounters) (e : Element),
      (handleElem cfg [] acc e).2.channels_filtered = acc.2.channels_filtered
      ∧ (handleElem cfg [] acc e).2.programmes_filtered_tvg = acc.2.programmes_filtered_tvg)
    ∧ (filter_and_build_epg cfg [] sources).stats.channels_filtered_by_tvg_id = 0
    ∧ (filter_and_build_epg cfg [] sources).stats.programmes_filtered_by_tvg_id = 0 := by
  refine ⟨fun acc e => handleElem_empty_valid_no_tvg cfg acc e, ?_⟩
  have key : ∀ (srcs : List (Option (List ParseEvent))) (st : RunState),
      (srcs.foldl (fun st src => process_epg_source cfg [] st src) st).stats.channels_filtered_by_tvg_id
          = st.stats.channels_filtered_by_tvg_id
      ∧ (srcs.foldl (fun st src => process_epg_source cfg [] st src) st).stats.programmes_filtered_by_tvg_id
          = st.stats.programmes_filtered_by_tvg_id := by
    intro srcs
    induction srcs with
    | nil => intro st; simp
    | cons src rest ih =>
      intro st
      cases src with
      | none => simpa [process_epg_source] using ih st
      | some evs =>
        have h1 := stream_parse_epg_empty_valid_tvg cfg evs st
        have h2 := ih (stream_parse_epg cfg [] evs st)
        exact ⟨h2.1.trans h1.1, h2.2.trans h1.2⟩
  have hk := key sources
    { seen_channels := [], seen_programmes := [], stats := initStats,
      output := [.text xmlDeclLine, .text tvOpenLine] }
  simp only [filter_and_build_epg]
  exact ⟨hk.1.trans rfl, hk.2.trans rfl⟩

/-! ## Claim C6: a mid-stream parse error truncates only its own source -/

/-- The event loop ignores everything from the first parse error on. -/
theorem processEvents_stops_at_error (cfg : Config) (valid : List String) :
    ∀ (evs : List ParseEvent) (acc : RunState × SourceCounters)
      (rest : List ParseEvent), ParseEvent.parseError ∉ evs →
    processEvents cfg valid (evs ++ ParseEvent.parseError :: rest) acc
      = processEvents cfg valid evs acc := by
  intro evs
  induction evs with
  | nil => intro acc rest _; simp [processEvents]
  | cons ev evs ih =>
    intro acc rest h
    cases ev with
    | parseError => exact absurd (List.mem_cons_self _ _) h
    | elem e =>
      simp only [List.cons_append, processEvents]
      exact ih _ rest (fun hm => h (List.mem_cons_of_mem _ hm))

/-- C6: a parse error in mid-stream stops that source at the error point:
the run state after the truncated source equals the run state after its
error-free prefix (every element serialized before the error stays in the
output and the per-source counters accumulated so far still reach the
shared statistics), and any subsequent source starts from that same
state, so it is unaffected. -/
theorem parse_error_truncates_source (cfg : Config) (valid : List String)
    (st : RunState) (evs rest : List ParseEvent)
    (h : ParseEvent.parseError ∉ evs) :
    stream_parse_epg cfg valid (evs ++ ParseEvent.parseError :: rest) st
      = stream_parse_epg cfg valid evs st
    ∧ ∀ evs2 : List ParseEvent,
        stream_parse_epg cfg valid evs2
            (stream_parse_epg cfg valid (evs ++ ParseEvent.parseError :: rest) st)
          = stream_parse_epg cfg valid evs2 (stream_parse_epg cfg valid evs st) := by
  have hmain : stream_parse_epg cfg valid (evs ++ ParseEvent.parseError :: rest) st
      = stream_parse_epg cfg valid evs st := by
    simp only [stream_parse_epg, processEvents_stops_at_error cfg valid evs _ rest h]
  exact ⟨hmain, fun evs2 => by rw [hmain]⟩

/-- C6 witness: one channel element, then a parse error, then a stray
element that the error hides; the result equals the run over the channel
element alone. -/
theorem parse_error_truncates_source_witness :
    stream_parse_epg ⟨0, 0, false, 0⟩ []
        ([ParseEvent.elem (.channel ⟨some "c1", "<channel id=(q)c1(q)/>"⟩)]
          ++ ParseEvent.parseError :: [ParseEvent.elem (.other "junk")])
        ⟨[], [], initStats, []⟩
      = stream_parse_epg ⟨0, 0, false, 0⟩ []
        [ParseEvent.elem (.channel ⟨some "c1", "<channel id=(q)c1(q)/>"⟩)]
        ⟨[], [], initStats, []⟩ :=
  (parse_error_truncates_source ⟨0, 0, false, 0⟩ [] ⟨[], [], initStats, []⟩
    [ParseEvent.elem (.channel ⟨some "c1", "<channel id=(q)c1(q)/>"⟩)]
    [ParseEvent.elem (.other "junk")] (by decide)).1

/-! ## Claim C2: cross-source deduplication -/

/-- `channelIds` distributes over append. -/
theorem channelIds_append (a b : List WriteItem) :
    channelIds (a ++ b) = channelIds a ++ channelIds b := by
  simp [channelIds, List.filterMap_append]

/-- `progKeysOf` distributes over append. -/
theorem progKeysOf_append (a b : List WriteItem) :
    progKeysOf (a ++ b) = progKeysOf a ++ progKeysOf b := by
  simp [progKeysOf, List.filterMap_append]

/-- The written programme keys are exactly the written triples through
the key function. -/
theorem progKeysOf_eq_map (out : List WriteItem) :
    progKeysOf out = (progTriples out).map fun t => progKey t.1 t.2.1 t.2.2 := by
  induction out with
  | nil => simp [progKeysOf, progTriples]
  | cons w ws ih => cases w <;> simp [progKeysOf, progTriples] <;> simpa [progKeysOf, progTriples] using ih

/-- A stats-only update preserves the deduplication invariant. -/
theorem DedupInv_stats_update (st : RunState) (s : Stats) :
    DedupInv st → DedupInv { st with stats := s } := by
  simp [DedupInv]

/-- Value of `handleElem` on a channel dropped by the allow-list filter. -/
theorem handleElem_channel_filtered (cfg : Config) (valid : List String)
    (st : RunState) (loc : SourceCounters) (c : ChannelData)
    (h1 : (!valid.isEmpty && !optIn c.id valid) = true) :
    handleElem cfg valid (st, loc) (.channel c)
      = ({ st with stats := { st.stats with
            total_channels_in_sources := st.stats.total_channels_in_sources + 1 } },
         { loc with channels_filtered := loc.channels_filtered + 1 }) := by
  simp [handleElem, h1]

/-- Value of `handleElem` on a duplicate channel. -/
theorem handleElem_channel_dup (cfg : Config) (valid : List String)
    (st : RunState) (loc : SourceCounters) (c : ChannelData)
    (h1 : (!valid.isEmpty && !optIn c.id valid) = false)
    (h2 : memB c.id st.seen_channels = true) :
    handleElem cfg valid (st, loc) (.channel c)
      = ({ st with stats := { st.stats with
            total_channels_in_sources := st.stats.total_channels_in_sources + 1 } },
         loc) := by
  simp [handleElem, h1, h2]

/-- Value of `handleElem` on a channel that is written to the output. -/
theorem handleElem_channel_add (cfg : Config) (valid : List String)
    (st : RunState) (loc : SourceCounters) (c : ChannelData)
    (h1 : (!valid.isEmpty && !optIn c.id valid) = false)
    (h2 : memB c.id st.seen_channels = false) :
    handleElem cfg valid (st, loc) (.channel c)
      = ({ st with
            seen_channels := c.id :: st.seen_channels,
            stats := { st.stats with
              total_channels_in_sources := st.stats.total_channels_in_sources + 1 },
            output := st.output ++ [.channelElem c.id c.raw] },
         { loc with channels_added := loc.channels_added + 1 }) := by
  simp [handleElem, h1, h2]

/-- Value of `handleElem` on a programme dropped by one of the four
filters: the state keeps its sets and output, only the total counter and
the matching local bucket move. -/
theorem handleElem_programme_filtered (cfg : Config) (valid : List String)
    (st : RunState) (loc : SourceCounters) (p : ProgrammeData)
    (hf : ((!valid.isEmpty && !optIn p.channel valid)
        || is_dummy_programme cfg.skip_dummy_programs p.channel
        || is_programme_too_far_future p.start cfg.days_future cfg.now
        || is_programme_too_far_past p.stop cfg.days_past cfg.now) = true) :
    (handleElem cfg valid (st, loc) (.programme p)).1
      = { st with stats := { st.stats with
            total_programmes_in_sources := st.stats.total_programmes_in_sources + 1 } } := by
  cases h1 : (!valid.isEmpty && !optIn p.channel valid) <;>
    cases h2 : is_dummy_programme cfg.skip_dummy_programs p.channel <;>
    cases h3 : is_programme_too_far_future p.start cfg.days_future cfg.now <;>
    cases h4 : is_programme_too_far_past p.stop cfg.days_past cfg.now <;>
    first
      | (simp [handleElem, h1, h2, h3, h4]; done)
      | (rw [h1, h2, h3, h4] at hf; simp at hf)

/-- Value of `handleElem` on a duplicate programme. -/
theorem handleElem_programme_dup (cfg : Config) (valid : List String)
    (st : RunState) (loc : SourceCounters) (p : ProgrammeData)
    (h1 : (!valid.isEmpty && !optIn p.channel valid) = false)
    (h2 : is_dummy_programme cfg.skip_dummy_programs p.channel = false)
    (h3 : is_programme_too_far_future p.start cfg.days_future cfg.now = false)
    (h4 : is_programme_too_far_past p.stop cfg.days_past cfg.now = false)
    (h5 : memB (progKey p.channel p.start p.stop) st.seen_programmes = true) :
    handleElem cfg valid (st, loc) (.programme p)
      = ({ st with stats := { st.stats with
            total_programmes_in_sources := st.stats.total_programmes_in_sources + 1 } },
         loc) := by
  simp [handleElem, h1, h2, h3, h4, h5]

/-- Value of `handleElem` on a programme that is written to the output. -/
theorem handleElem_programme_add (cfg : Config) (valid : List String)
    (st : RunState) (loc : SourceCounters) (p : ProgrammeData)
    (h1 : (!valid.isEmpty && !optIn p.channel valid) = false)
    (h2 : is_dummy_programme cfg.skip_dummy_programs p.channel = false)
    (h3 : is_programme_too_far_future p.start cfg.days_future cfg.now = false)
    (h4 : is_programme_too_far_past p.stop cfg.days_past cfg.now = false)
    (h5 : memB (progKey p.channel p.start p.stop) st.seen_programmes = false) :
    handleElem cfg valid (st, loc) (.programme p)
      = ({ st with
            seen_programmes := progKey p.channel p.start p.stop :: st.seen_programmes,
            stats := { st.stats with
              total_programmes_in_sources := st.stats.total_programmes_in_sources + 1 },
            output := st.output ++ [.programmeElem p.channel p.start p.stop p.raw] },
         { loc with programmes_added := loc.programmes_added + 1 }) := by
  simp [handleElem, h1, h2, h3, h4, h5]

/-- Handling one element grows the seen sets monotonically and preserves
the deduplication invariant. -/
theorem handleElem_dedup (cfg : Config) (valid : List String)
    (acc : RunState × SourceCounters) (e : Element) :
    (∀ x, memB x acc.1.seen_channels = true
      → memB x (handleElem cfg valid acc e).1.seen_channels = true)
    ∧ (∀ k, memB k acc.1.seen_programmes = true
      → memB k (handleElem cfg valid acc e).1.seen_programmes = true)
    ∧ (DedupInv acc.1 → DedupInv (handleElem cfg valid acc e).1) := by
  obtain ⟨st, loc⟩ := acc
  cases e with
  | other s =>
    exact ⟨fun x hx => hx, fun k hk => hk, fun h => h⟩
  | channel c =>
    cases h1 : (!valid.isEmpty && !optIn c.id valid) with
    | true =>
      rw [handleElem_channel_filtered cfg valid st loc c h1]
      exact ⟨fun x hx => hx, fun k hk => hk, fun h => DedupInv_stats_update st _ h⟩
    | false =>
      cases h2 : memB c.id st.seen_channels with
      | true =>
        rw [handleElem_channel_dup cfg valid st loc c h1 h2]
        exact ⟨fun x hx => hx, fun k hk => hk, fun h => DedupInv_stats_update st _ h⟩
      | false =>
        rw [handleElem_channel_add cfg valid st loc c h1 h2]
        refine ⟨fun x hx => ?_, fun k hk => hk, fun h => ?_⟩
        · simp only [memB]
          simp [hx]
        · obtain ⟨hnd, hmem, hndp, hmemp⟩ := h
          refine ⟨?_, ?_, ?_, ?_⟩
          · simp only [channelIds_append]
            refine List.Nodup.append hnd (by simp [channelIds]) ?_
            intro a ha hb
            simp only [channelIds, List.filterMap_cons, List.filterMap_nil] at hb
            simp only [List.mem_singleton] at hb
            subst hb
            have := hmem _ ha
            rw [h2] at this
            exact Bool.false_ne_true this
          · intro i hi
            simp only [channelIds_append] at hi
            rcases List.mem_append.mp hi with hold | hnew
            · have := hmem _ hold
              simp [memB, this]
            · simp only [channelIds, List.filterMap_cons, List.filterMap_nil,
                List.mem_singleton] at hnew
              subst hnew
              simp [memB]
          · simpa [progKeysOf_append, progKeysOf] using hndp
          · intro k hk
            have : k ∈ progKeysOf st.output := by
              simpa [progKeysOf_append, progKeysOf] using hk
            exact hmemp _ this
  | programme p =>
    cases hfilter : ((!valid.isEmpty && !optIn p.channel valid)
        || is_dummy_programme cfg.skip_dummy_programs p.channel
        || is_programme_too_far_future p.start cfg.days_future cfg.now
        || is_programme_too_far_past p.stop cfg.days_past cfg.now) with
    | true =>
      have heq := handleElem_programme_filtered cfg valid st loc p hfilter
      constructor
      · intro x hx; rw [heq]; exact hx
      constructor
      · intro k hk; rw [heq]; exact hk
      · intro h; rw [heq]; exact DedupInv_stats_update st _ h
    | false =>
      have h1 : (!valid.isEmpty && !optIn p.channel valid) = false := by
        revert hfilter; cases (!valid.isEmpty && !optIn p.channel valid) <;> simp
      have h2 : is_dummy_programme cfg.skip_dummy_programs p.channel = false := by
        revert hfilter; cases is_dummy_programme cfg.skip_dummy_programs p.channel <;> simp
      have h3 : is_programme_too_far_future p.start cfg.days_future cfg.now = false := by
        revert hfilter
        cases is_programme_too_far_future p.start cfg.days_future cfg.now <;> simp
      have h4 : is_programme_too_far_past p.stop cfg.days_past cfg.now = false := by
        revert hfilter
        cases is_programme_too_far_past p.stop cfg.days_past cfg.now <;> simp
      cases h5 : memB (progKey p.channel p.start p.stop) st.seen_programmes with
      | true =>
        rw [handleElem_programme_dup cfg valid st loc p h1 h2 h3 h4 h5]
        exact ⟨fun x hx => hx, fun k hk => hk, fun h => DedupInv_stats_update st _ h⟩
      | false =>
        rw [handleElem_programme_add cfg valid st loc p h1 h2 h3 h4 h5]
        refine ⟨fun x hx => hx, fun k hk => ?_, fun h => ?_⟩
        · simp only [memB]
          simp [hk]
        · obtain ⟨hnd, hmem, hndp, hmemp⟩ := h
          refine ⟨?_, ?_, ?_, ?_⟩
          · simpa [channelIds_append, channelIds] using hnd
          · intro i hi
            have : i ∈ channelIds st.output := by
              simpa [channelIds_append, channelIds] using hi
            exact hmem _ this
          · simp only [progKeysOf_append]
            refine List.Nodup.append hndp (by simp [progKeysOf]) ?_
            intro a ha hb
            simp only [progKeysOf, List.filterMap_cons, List.filterMap_nil,
              List.mem_singleton] at hb
            subst hb
            have := hmemp _ ha
            rw [h5] at this
            exact Bool.false_ne_true this
          · intro k hk
            simp only [progKeysOf_append] at hk
            rcases List.mem_append.mp hk with hold | hnew
            · have := hmemp _ hold
              simp [memB, this]
            · simp only [progKeysOf, List.filterMap_cons, List.filterMap_nil,
                List.mem_singleton] at hnew
              subst hnew
              simp [memB]

/-- The event loop grows the seen sets monotonically and preserves the
deduplication invariant. -/
theorem processEvents_dedup (cfg : Config) (valid : List String)
    (evs : List ParseEvent) : ∀ acc : RunState × SourceCounters,
    (∀ x, memB x acc.1.seen_channels = true
      → memB x (processEvents cfg valid evs acc).1.seen_channels = true)
    ∧ (∀ k, memB k acc.1.seen_programmes = true
      → memB k (processEvents cfg valid evs acc).1.seen_programmes = true)
    ∧ (DedupInv acc.1 → DedupInv (processEvents cfg valid evs acc).1) := by
  induction evs with
  | nil => intro acc; exact ⟨fun x hx => hx, fun k hk => hk, fun h => h⟩
  | cons ev rest ih =>
    intro acc
    cases ev with
    | parseError => exact ⟨fun x hx => hx, fun k hk => hk, fun h => h⟩
    | elem e =>
      have h1 := handleElem_dedup cfg valid acc e
      have h2 := ih (handleElem cfg valid acc e)
      exact ⟨fun x hx => h2.1 x (h1.1 x hx), fun k hk => h2.2.1 k (h1.2.1 k hk),
        fun h => h2.2.2 (h1.2.2 h)⟩

/-- One source grows the seen sets monotonically and preserves the
deduplication invariant. -/
theorem stream_parse_epg_dedup (cfg : Config) (valid : List String)
    (evs : List ParseEvent) (st : RunState) :
    (∀ x, memB x st.seen_channels = true
      → memB x (stream_parse_epg cfg valid evs st).seen_channels = true)
    ∧ (∀ k, memB k st.seen_programmes = true
      → memB k (stream_parse_epg cfg valid evs st).seen_programmes = true)
    ∧ (DedupInv st → DedupInv (stream_parse_epg cfg valid evs st)) := by
  have h := processEvents_dedup cfg valid evs (st, zeroCounters)
  simp only [stream_parse_epg]
  exact ⟨fun x hx => h.1 x hx, fun k hk => h.2.1 k hk,
    fun hInv => DedupInv_stats_update _ _ (h.2.2 hInv)⟩

/-- C2: over any run, no two channel elements written to the output share
the same identifier attribute and no two programme elements share the
same (channel identifier, start, stop) attribute triple, even when the
same element appears verbatim in two different sources; and the
seen-channel and seen-programme-key sets only ever grow during a run. -/
theorem output_dedup_and_insert_only (cfg : Config) (valid : List String)
    (sources : List (Option (List ParseEvent))) :
    (channelIds (filter_and_build_epg cfg valid sources).output).Nodup
    ∧ (progTriples (filter_and_build_epg cfg valid sources).output).Nodup
    ∧ ∀ (st : RunState) (evs : List ParseEvent) (x : Option String) (k : String),
        (memB x st.seen_channels = true
          → memB x (stream_parse_epg cfg valid evs st).seen_channels = true)
        ∧ (memB k st.seen_programmes = true
          → memB k (stream_parse_epg cfg valid evs st).seen_programmes = true) := by
  have hfold : ∀ (srcs : List (Option (List ParseEvent))) (st : RunState),
      DedupInv st
      → DedupInv (srcs.foldl (fun st src => process_epg_source cfg valid st src) st) := by
    intro srcs
    induction srcs with
    | nil => intro st h; simpa using h
    | cons src rest ih =>
      intro st h
      cases src with
      | none => exact ih st h
      | some evs => exact ih _ ((stream_parse_epg_dedup cfg valid evs st).2.2 h)
  have hinit : DedupInv
      { seen_channels := [], seen_programmes := [], stats := initStats,
        output := [.text xmlDeclLine, .text tvOpenLine] } := by
    refine ⟨by simp [channelIds], ?_, by simp [progKeysOf], ?_⟩
    · intro i hi
      simp [channelIds] at hi
    · intro k hk
      simp [progKeysOf] at hk
  have hfinal := hfold sources _ hinit
  have houtput : (filter_and_build_epg cfg valid sources).output
      = (sources.foldl (fun st src => process_epg_source cfg valid st src)
          { seen_channels := [], seen_programmes := [], stats := initStats,
            output := [.text xmlDeclLine, .text tvOpenLine] }).output
        ++ [.text tvCloseLine] := by
    simp [filter_and_build_epg]
  obtain ⟨hnd, _, hndp, _⟩ := hfinal
  refine ⟨?_, ?_, ?_⟩
  · rw [houtput, channelIds_append]
    simpa [channelIds] using hnd
  · have hk : (progKeysOf (filter_and_build_epg cfg valid sources).output).Nodup := by
      rw [houtput, progKeysOf_append]
      simpa [progKeysOf] using hndp
    rw [progKeysOf_eq_map] at hk
    exact hk.of_map
  · intro st evs x k
    exact ⟨(stream_parse_epg_dedup cfg valid evs st).1 x,
      (stream_parse_epg_dedup cfg valid evs st).2.1 k⟩

/-- C2 witness: the concrete duplicated-source run keeps a single copy of
the repeated channel, and a seen channel stays seen through another
source. -/
theorem output_dedup_and_insert_only_witness :
    (channelIds (filter_and_build_epg ⟨0, 0, false, 0⟩ []
        [some [ParseEvent.elem (.channel ⟨some "c1", "<channel/>"⟩)],
         some [ParseEvent.elem (.channel ⟨some "c1", "<channel/>"⟩)]]).output).Nodup
    ∧ memB (some "c1")
        (stream_parse_epg ⟨0, 0, false, 0⟩ [] []
          ⟨[some "c1"], [], initStats, []⟩).seen_channels = true :=
  ⟨(output_dedup_and_insert_only ⟨0, 0, false, 0⟩ []
      [some [ParseEvent.elem (.channel ⟨some "c1", "<channel/>"⟩)],
       some [ParseEvent.elem (.channel ⟨some "c1", "<channel/>"⟩)]]).1,
   ((output_dedup_and_insert_only ⟨0, 0, false, 0⟩ [] []).2.2
      ⟨[some "c1"], [], initStats, []⟩ [] (some "c1") "k").1 (by decide)⟩

/-! ## Claim C5: envelope and element order of the output document -/

/-- Handling one element appends at most that element's own write item to
the output. -/
theorem handleElem_output (cfg : Config) (valid : List String)
    (acc : RunState × SourceCounters) (e : Element) :
    ∃ extra : List WriteItem,
      (handleElem cfg valid acc e).1.output = acc.1.output ++ extra
      ∧ extra.Sublist (elemWriteOf e).toList := by
  obtain ⟨st, loc⟩ := acc
  cases e with
  | other s => exact ⟨[], by simp [handleElem], by simp⟩
  | channel c =>
    cases h1 : (!valid.isEmpty && !optIn c.id valid) with
    | true =>
      exact ⟨[], by rw [handleElem_channel_filtered cfg valid st loc c h1]; simp, by simp⟩
    | false =>
      cases h2 : memB c.id st.seen_channels with
      | true =>
        exact ⟨[], by rw [handleElem_channel_dup cfg valid st loc c h1 h2]; simp, by simp⟩
      | false =>
        refine ⟨[.channelElem c.id c.raw], ?_, ?_⟩
        · rw [handleElem_channel_add cfg valid st loc c h1 h2]
        · simp [elemWriteOf]
  | programme p =>
    cases hfilter : ((!valid.isEmpty && !optIn p.channel valid)
        || is_dummy_programme cfg.skip_dummy_programs p.channel
        || is_programme_too_far_future p.start cfg.days_future cfg.now
        || is_programme_too_far_past p.stop cfg.days_past cfg.now) with
    | true =>
      exact ⟨[], by rw [handleElem_programme_filtered cfg valid st loc p hfilter]; simp, by simp⟩
    | false =>
      have h1 : (!valid.isEmpty && !optIn p.channel valid) = false := by
        revert hfilter; cases (!valid.isEmpty && !optIn p.channel valid) <;> simp
      have h2 : is_dummy_programme cfg.skip_dummy_programs p.channel = false := by
        revert hfilter; cases is_dummy_programme cfg.skip_dummy_programs p.channel <;> simp
      have h3 : is_programme_too_far_future p.start cfg.days_future cfg.now = false := by
        revert hfilter
        cases is_programme_too_far_future p.start cfg.days_future cfg.now <;> simp
      have h4 : is_programme_too_far_past p.stop cfg.days_past cfg.now = false := by
        revert hfilter
        cases is_programme_too_far_past p.stop cfg.days_past cfg.now <;> simp
      cases h5 : memB (progKey p.channel p.start p.stop) st.seen_programmes with
      | true =>
        exact ⟨[], by rw [handleElem_programme_dup cfg valid st loc p h1 h2 h3 h4 h5]; simp,
          by simp⟩
      | false =>
        refine ⟨[.programmeElem p.channel p.start p.stop p.raw], ?_, ?_⟩
        · rw [handleElem_programme_add cfg valid st loc p h1 h2 h3 h4 h5]
        · simp [elemWriteOf]

/-- Every candidate write of a source stream is an element write. -/
theorem eventCandidates_elemWrites (evs : List ParseEvent) :
    ∀ w ∈ eventCandidates evs, w.isElemWrite = true := by
  induction evs with
  | nil => intro w hw; simp [eventCandidates] at hw
  | cons ev rest ih =>
    intro w hw
    cases ev with
    | parseError => simp [eventCandidates] at hw
    | elem e =>
      cases e with
      | channel c =>
        simp only [eventCandidates, elemWriteOf] at hw
        rcases List.mem_cons.mp hw with h | h
        · subst h; rfl
        · exact ih w h
      | programme p =>
        simp only [eventCandidates, elemWriteOf] at hw
        rcases List.mem_cons.mp hw with h | h
        · subst h; rfl
        · exact ih w h
      | other s =>
        simp only [eventCandidates, elemWriteOf] at hw
        exact ih w hw

/-- The event loop appends, in document order, a selection of the
stream's candidate element writes. -/
theorem processEvents_output (cfg : Config) (valid : List String)
    (evs : List ParseEvent) : ∀ acc : RunState × SourceCounters,
    ∃ extra : List WriteItem,
      (processEvents cfg valid evs acc).1.output = acc.1.output ++ extra
      ∧ extra.Sublist (eventCandidates evs) := by
  induction evs with
  | nil => intro acc; exact ⟨[], by simp [processEvents], by simp [eventCandidates]⟩
  | cons ev rest ih =>
    intro acc
    cases ev with
    | parseError => exact ⟨[], by simp [processEvents], by simp [eventCandidates]⟩
    | elem e =>
      obtain ⟨e1, he1, hs1⟩ := handleElem_output cfg valid acc e
      obtain ⟨e2, he2, hs2⟩ := ih (handleElem cfg valid acc e)
      refine ⟨e1 ++ e2, ?_, ?_⟩
      · simp only [processEvents, he2, he1, List.append_assoc]
      · cases e with
        | channel c => exact List.Sublist.append hs1 hs2
        | programme p => exact List.Sublist.append hs1 hs2
        | other s =>
          have he1nil : e1 = [] := List.sublist_nil.mp hs1
          subst he1nil
          simpa using hs2

/-- One source appends, in document order, a selection of its candidate
element writes. -/
theorem stream_parse_epg_output (cfg : Config) (valid : List String)
    (evs : List ParseEvent) (st : RunState) :
    ∃ extra : List WriteItem,
      (stream_parse_epg cfg valid evs st).output = st.output ++ extra
      ∧ extra.Sublist (eventCandidates evs) := by
  obtain ⟨extra, he, hs⟩ := processEvents_output cfg valid evs (st, zeroCounters)
  exact ⟨extra, by simpa [stream_parse_epg] using he, hs⟩

/-- Every candidate write of a source is an element write. -/
theorem sourceCandidates_elemWrites (src : Option (List ParseEvent)) :
    ∀ w ∈ sourceCandidates src, w.isElemWrite = true := by
  cases src with
  | none => intro w hw; simp [sourceCandidates] at hw
  | some evs => exact eventCandidates_elemWrites evs

/-- A member of the left list of a `Forall₂` is related to some element
of the right list. -/
theorem forall2_mem_left {α β : Type} {R : α → β → Prop} :
    ∀ {l1 : List α} {l2 : List β}, List.Forall₂ R l1 l2 → ∀ b ∈ l1, ∃ s, R b s := by
  intro l1 l2 h
  induction h with
  | nil => intro b hb; simp at hb
  | cons hr hrest ih =>
    intro b hb
    rcases List.mem_cons.mp hb with hb | hb
    · subst hb; exact ⟨_, hr⟩
    · exact ih b hb

/-- The source-processing fold appends, per source in list order, a
selection of that source's candidate writes in document order. -/
theorem foldl_sources_output (cfg : Config) (valid : List String) :
    ∀ (srcs : List (Option (List ParseEvent))) (st : RunState),
    ∃ body : List (List WriteItem),
      (srcs.foldl (fun st src => process_epg_source cfg valid st src) st).output
        = st.output ++ body.join
      ∧ List.Forall₂ (fun b src => b.Sublist (sourceCandidates src)) body srcs := by
  intro srcs
  induction srcs with
  | nil => intro st; exact ⟨[], by simp, List.Forall₂.nil⟩
  | cons src rest ih =>
    intro st
    cases src with
    | none =>
      obtain ⟨body, hb, hf⟩ := ih st
      refine ⟨[] :: body, ?_, List.Forall₂.cons (by simp [sourceCandidates]) hf⟩
      simpa [process_epg_source] using hb
    | some evs =>
      obtain ⟨extra, he, hs⟩ := stream_parse_epg_output cfg valid evs st
      obtain ⟨body, hb, hf⟩ := ih (stream_parse_epg cfg valid evs st)
      refine ⟨extra :: body, ?_, List.Forall₂.cons hs hf⟩
      show (List.foldl (fun st src => process_epg_source cfg valid st src)
          (stream_parse_epg cfg valid evs st) rest).output
        = st.output ++ (extra :: body).join
      rw [hb, he]
      simp [List.append_assoc]

/-- C5 amended: the output is exactly the two header lines, then the
merged element writes, then the root close line; the body is one block
per source in source-list order, each block a subsequence (document
order) of that source's candidate element writes, and every body item is
a channel or programme element write. -/
theorem output_envelope_structure (cfg : Config) (valid : List String)
    (sources : List (Option (List ParseEvent))) :
    ∃ body : List (List WriteItem),
      (filter_and_build_epg cfg valid sources).output
        = WriteItem.text xmlDeclLine :: WriteItem.text tvOpenLine
            :: (body.join ++ [WriteItem.text tvCloseLine])
      ∧ List.Forall₂ (fun b src => b.Sublist (sourceCandidates src)) body sources
      ∧ ∀ w ∈ body.join, w.isElemWrite = true := by
  obtain ⟨body, hb, hf⟩ := foldl_sources_output cfg valid sources
    { seen_channels := [], seen_programmes := [], stats := initStats,
      output := [.text xmlDeclLine, .text tvOpenLine] }
  refine ⟨body, ?_, hf, ?_⟩
  · simp only [filter_and_build_epg]
    rw [hb]
    simp
  · intro w hw
    obtain ⟨b, hbmem, hwb⟩ := List.mem_join.mp hw
    obtain ⟨src, hsrc⟩ := forall2_mem_left hf b hbmem
    exact sourceCandidates_elemWrites src w (hsrc.subset hwb)

/-- C5 counterexample: a single source whose document order puts a
programme before a channel produces an output in which a channel element
write follows a programme element write, so the output body is not
"channel elements followed by programme elements". -/
theorem output_not_channels_then_programmes :
    (filter_and_build_epg ⟨0, 0, false, 0⟩ []
        [some [ParseEvent.elem (.programme ⟨some "p", none, none, "<programme/>"⟩),
               ParseEvent.elem (.channel ⟨some "c", "<channel/>"⟩)]]).output
      = [WriteItem.text xmlDeclLine, WriteItem.text tvOpenLine,
         WriteItem.programmeElem (some "p") none none "<programme/>",
         WriteItem.channelElem (some "c") "<channel/>",
         WriteItem.text tvCloseLine]
    ∧ noChannelAfterProgramme (filter_and_build_epg ⟨0, 0, false, 0⟩ []
        [some [ParseEvent.elem (.programme ⟨some "p", none, none, "<programme/>"⟩),
               ParseEvent.elem (.channel ⟨some "c", "<channel/>"⟩)]]).output = false := by
  refine ⟨by decide, by decide⟩

/-- C5 witness: the amended structure theorem applied to a concrete
two-source run. -/
theorem output_envelope_structure_witness :
    ∃ body : List (List WriteItem),
      (filter_and_build_epg ⟨0, 0, false, 0⟩ []
          [some [ParseEvent.elem (.channel ⟨some "c", "<channel/>"⟩)], none]).output
        = WriteItem.text xmlDeclLine :: WriteItem.text tvOpenLine
            :: (body.join ++ [WriteItem.text tvCloseLine])
      ∧ List.Forall₂ (fun b src => b.Sublist (sourceCandidates src)) body
          [some [ParseEvent.elem (.channel ⟨some "c", "<channel/>"⟩)], none]
      ∧ ∀ w ∈ body.join, w.isElemWrite = true :=
  output_envelope_structure ⟨0, 0, false, 0⟩ []
    [some [ParseEvent.elem (.channel ⟨some "c", "<channel/>"⟩)], none]
